import Mathlib

/-!
Verification development for the navigation-and-capture core of
`whop_downloader.py` (class `WhopDownloader`).

The Python code is shallowly embedded as executable Lean definitions:
Python strings are modelled as explicit character lists (`PyStr`), the
insertion-ordered dict `all_video_urls` as an association list, the
stateful polling loops as fuel-indexed structural recursions (the fuel is
exactly the loop's iteration bound, so no behaviour is cut off), and the
browser as an environment record of the observations the script makes of
it.  Browser interactions are recorded in an explicit action trace.
Wall-clock time in the polling loops is modelled as the loop's fixed poll
interval per iteration, matching the cooperative single-threaded
scheduling of the script.
-/

namespace Whop

/-- Python strings, modelled as explicit lists of characters so that every
string operation is a structurally recursive, kernel-evaluable function. -/
abbrev PyStr := List Char

/-- Boolean test that the first list is a leading segment of the second:
the sliding comparison used below to model Python substring search. -/
def startsWith : PyStr → PyStr → Bool
  | [], _ => true
  | _ :: _, [] => false
  | c :: cs, d :: ds => if c = d then startsWith cs ds else false

/-- Trailing-segment test, used to state the spec wording
"extension = .m3u8" about a URL path. -/
def endsWith (suf s : PyStr) : Bool := startsWith suf.reverse s.reverse

/-- Models the Python substring test `sub in s`. -/
def pyContains (sub : PyStr) : PyStr → Bool
  | [] => startsWith sub []
  | c :: rest => startsWith sub (c :: rest) || pyContains sub rest

/-- Models `s.split(sep)[0]` for a non-empty separator: the part of `s`
before the first occurrence of `sep`, or all of `s` when `sep` does not
occur. -/
def cutAt (sep : PyStr) : PyStr → PyStr
  | [] => []
  | c :: rest => if startsWith sep (c :: rest) then [] else c :: cutAt sep rest

/-- Helper for `pyLastSplit`: scans the string, keeping (reversed) the
segment read since the most recent separator. -/
def lastSegAux (sep : Char) (cur : PyStr) : PyStr → PyStr
  | [] => cur.reverse
  | c :: rest =>
    if c = sep then lastSegAux sep [] rest else lastSegAux sep (c :: cur) rest

/-- Models `s.split(sep)[-1]` for a one-character separator: the part of
`s` after the last occurrence of `sep`, or all of `s` when absent. -/
def pyLastSplit (sep : Char) (s : PyStr) : PyStr := lastSegAux sep [] s

/-- Models line 116 of the source:
`video_id = url.split('/')[-1].split('.m3u8')[0].split('?')[0]`. -/
def extractVideoId (url : PyStr) : PyStr :=
  cutAt ("?".toList) (cutAt (".m3u8".toList) (pyLastSplit '/' url))

/-- Models the guard on line 114:
`if 'stream.mux.com' in url and '.m3u8' in url`. -/
def respMatches (url : PyStr) : Bool :=
  pyContains ("stream.mux.com".toList) url && pyContains (".m3u8".toList) url

/-- Lookup in the insertion-ordered association list that models the
Python dict `all_video_urls`; `(findUrl v st).isSome` models the
membership test `video_id in all_video_urls`. -/
def findUrl (vid : PyStr) : List (PyStr × PyStr) → Option PyStr
  | [] => none
  | kv :: rest => if kv.1 = vid then some kv.2 else findUrl vid rest

/-- Models `handle_response` (lines 112-119) acting on `all_video_urls`:
a matching URL's extracted identifier is recorded, mapped to the URL, only
when the identifier is not already present. -/
def handleResponse (st : List (PyStr × PyStr)) (url : PyStr) :
    List (PyStr × PyStr) :=
  if respMatches url then
    let vid := extractVideoId url
    if (findUrl vid st).isSome then st else st ++ [(vid, url)]
  else st

/-- Delivers a whole sequence of response URLs to the observer, starting
from the empty map. -/
def observeAll (urls : List PyStr) : List (PyStr × PyStr) :=
  urls.foldl handleResponse []

/-- Decimal digit list of a number, used to model Python format
specifiers such as `{index:02d}`. -/
def natToDec (n : Nat) : PyStr := Nat.toDigits 10 n

/-- Models the format `f'{n:02d}'` (zero-pad to width 2). -/
def pad2 (n : Nat) : PyStr :=
  List.replicate (2 - (natToDec n).length) '0' ++ natToDec n

/-- Models the format `f'{n:03d}'` (zero-pad to width 3). -/
def pad3 (n : Nat) : PyStr :=
  List.replicate (3 - (natToDec n).length) '0' ++ natToDec n

/-- Models the synthetic title `f'Lesson {index:02d}'` (line 319). -/
def lessonTitle (n : Nat) : PyStr := "Lesson ".toList ++ pad2 n

/-- The lesson-record dict built on lines 318-323. -/
structure VideoInfo where
  title : PyStr
  url : PyStr
  video_id : PyStr
  index : Nat
deriving DecidableEq, Repr

/-- Models Python `enumerate(xs, start)`. -/
def pyEnumerate (start : Nat) : List α → List (Nat × α)
  | [] => []
  | x :: xs => (start, x) :: pyEnumerate (start + 1) xs

/-- Models lines 316-324: convert the captured map, in insertion
(discovery) order, to the ordered list of lesson records with 1-based
positions. -/
def toVideoData (m : List (PyStr × PyStr)) : List VideoInfo :=
  (pyEnumerate 1 m).map (fun p => ⟨lessonTitle p.1, p.2.2, p.2.1, p.1⟩)

/-- Keys pressed through the automated browser. -/
inductive Key
  | arrowRight
  | arrowLeft
  | space
deriving DecidableEq, Repr

/-- Browser interactions performed by the script, recorded as a trace. -/
inductive BAction
  | goto
  | waitMs (ms : Nat)
  | evalScript
  | queryElem
  | click
  | keyPress (k : Key)
deriving DecidableEq, Repr

/-- Whether a browser action is a key press (an "advance" or other input
signal). -/
def BAction.isKeyPress : BAction → Bool
  | .keyPress _ => true
  | _ => false

/-- Models the login wait loop (lines 171-184).  `stillLogin e` reports
whether the page URL still matches the login pattern at the poll on which
the elapsed counter shows `e` seconds.  The fuel 150 is exactly the
number of iterations `while elapsed < 300` can make with `elapsed += 2`
per iteration.  Returns the final elapsed value together with whether the
loop ended through the URL-change break. -/
def loginWaitAux (stillLogin : Nat → Bool) : Nat → Nat → Nat × Bool
  | 0, e => (e, false)
  | fuel + 1, e =>
    if e < 300 then
      if stillLogin (e + 2) then loginWaitAux stillLogin fuel (e + 2)
      else (e + 2, true)
    else (e, false)

/-- The login wait loop run from `elapsed = 0` with its full iteration
budget. -/
def loginWait (stillLogin : Nat → Bool) : Nat × Bool :=
  loginWaitAux stillLogin 150 0

/-- How the keyboard-navigation paging loop (lines 224-267) can end:
through the stall break on line 241, or by exhausting the 150-attempt
cap of the `for` loop. -/
inductive StopReason
  | stallExit
  | capExit
deriving DecidableEq, Repr

/-- Outcome of the keyboard-navigation paging loop. -/
structure AutoResult where
  navCount : Nat
  noNew : Nat
  reason : StopReason
  acts : List BAction
deriving DecidableEq, Repr

/-- Models the keyboard-navigation paging loop (lines 224-267).  `f k` is
the value of `len(all_video_urls)` observed at attempt `k`'s check; the
remaining state mirrors `navigation_count` (here returned as the final
attempt index), `no_new_videos_count` and `last_video_count`.  Per
iteration: wait, compare capture count, break when the stall counter
exceeds 30 with at least one capture, otherwise press ArrowRight, and
when the stall counter exceeds 15 run the alternative-interaction
recovery and reset the counter to 10. -/
def autoLoopAux (f : Nat → Nat) :
    Nat → Nat → Nat → Nat → List BAction → AutoResult
  | 0, attempt, noNew, _last, acts => ⟨attempt, noNew, StopReason.capExit, acts⟩
  | fuel + 1, attempt, noNew, last, acts =>
    let acts1 := acts ++ [BAction.waitMs 2000]
    let c := f attempt
    let noNew1 := if c > last then 0 else noNew + 1
    let last1 := if c > last then c else last
    if noNew1 > 30 ∧ c > 0 then
      ⟨attempt + 1, noNew1, StopReason.stallExit, acts1⟩
    else
      let acts2 := acts1 ++ [BAction.keyPress Key.arrowRight]
      if noNew1 > 15 then
        autoLoopAux f fuel (attempt + 1) 10 last1
          (acts2 ++ [BAction.queryElem, BAction.click, BAction.waitMs 500,
            BAction.keyPress Key.space, BAction.waitMs 2000])
      else autoLoopAux f fuel (attempt + 1) noNew1 last1 acts2

/-- The keyboard-navigation paging loop run from its start state with the
full `max_attempts = 150` budget. -/
def autoLoop (f : Nat → Nat) : AutoResult := autoLoopAux f 150 0 0 0 []

/-- How the manual monitoring loop (lines 283-307) can end: the liveness
probe fails (browser closed), or the 600-second wall-clock timeout. -/
inductive ManualStop
  | closed
  | timedOut
deriving DecidableEq, Repr

/-- Outcome of the manual monitoring loop. -/
structure ManualResult where
  reason : ManualStop
  iters : Nat
  acts : List BAction
deriving DecidableEq, Repr

/-- Models the manual monitoring loop (lines 283-307).  `aliveAt k` is
the outcome of the liveness probe (`page.evaluate("1")`) on iteration
`k`.  Wall-clock time is modelled as 2 seconds (the fixed poll interval)
per iteration, so `elapsed > 600` first holds on iteration 300; the fuel
302 strictly exceeds the 301 iterations that can therefore occur.  Each
iteration waits, checks the capture count (a log-only step), probes
liveness, and checks the timeout; no key is ever pressed. -/
def manualAux (aliveAt : Nat → Bool) : Nat → Nat → List BAction → ManualResult
  | 0, k, acts => ⟨ManualStop.timedOut, k, acts⟩
  | fuel + 1, k, acts =>
    let acts1 := acts ++ [BAction.waitMs 2000, BAction.evalScript]
    if aliveAt k then
      if 2 * (k + 1) > 600 then ⟨ManualStop.timedOut, k, acts1⟩
      else manualAux aliveAt fuel (k + 1) acts1
    else ⟨ManualStop.closed, k, acts1⟩

/-- The manual monitoring loop run from its start state. -/
def manualMonitor (aliveAt : Nat → Bool) : ManualResult :=
  manualAux aliveAt 302 0 []

/-- Everything the script observes of the live browser during one fresh
extraction: whether a course iframe was found, whether the post-settle URL
matches the login pattern, the login-poll observations, the outcome of
the navigation-method probe, the capture counts seen by the paging loop,
the liveness probes of the manual loop, and the full sequence of network
response URLs delivered to the observer. -/
structure BrowserEnv where
  iframeFound : Bool
  isLoginUrl : Bool
  stillLogin : Nat → Bool
  keyboardNavWorks : Bool
  capturedAt : Nat → Nat
  aliveAt : Nat → Bool
  responses : List PyStr

/-- Result of `extract_video_urls`: the returned lesson records together
with the trace of browser interactions performed. -/
structure ExtractOutcome where
  data : List VideoInfo
  acts : List BAction
deriving DecidableEq, Repr

/-- Browser interactions up to the login check (lines 124-162): navigate
to the course, settle, probe for the iframe, optionally navigate into it,
and settle again. -/
def prologueActs (env : BrowserEnv) : List BAction :=
  [BAction.goto, BAction.waitMs 3000, BAction.evalScript] ++
    (if env.iframeFound then [BAction.goto, BAction.waitMs 3000] else []) ++
    [BAction.waitMs 5000]

/-- Browser interactions of the navigation-method probe (lines 190-209):
settle, press ArrowRight, settle, and when the URL changed press
ArrowLeft and settle to restore the starting position. -/
def detectActs (env : BrowserEnv) : List BAction :=
  [BAction.waitMs 5000, BAction.keyPress Key.arrowRight, BAction.waitMs 3000] ++
    (if env.keyboardNavWorks then
      [BAction.keyPress Key.arrowLeft, BAction.waitMs 2000] else [])

/-- Models lines 190-336 after the login check: probe the navigation
method, run the matching loop, and convert the captured map to the
ordered lesson records (the conversion and persist step runs on every
terminal path of either loop). -/
def afterLoginPhase (env : BrowserEnv) (acts : List BAction) : ExtractOutcome :=
  let acts1 := acts ++ detectActs env
  if env.keyboardNavWorks then
    ⟨toVideoData (observeAll env.responses), acts1 ++ (autoLoop env.capturedAt).acts⟩
  else
    ⟨toVideoData (observeAll env.responses), acts1 ++ (manualMonitor env.aliveAt).acts⟩

/-- Models the browser phase of `extract_video_urls` (lines 83-336): when
the settled URL matches the login pattern, poll for login completion and
return the empty list when the 300-second ceiling was used up, otherwise
continue into detection, paging and conversion. -/
def freshExtract (env : BrowserEnv) : ExtractOutcome :=
  let base := prologueActs env
  if env.isLoginUrl then
    let r := loginWait env.stillLogin
    let acts1 := base ++ List.replicate (r.1 / 2) (BAction.waitMs 2000)
    if r.1 ≥ 300 then ⟨[], acts1⟩
    else afterLoginPhase env acts1
  else afterLoginPhase env base

/-- Models the cache gate of `extract_video_urls` (lines 66-81).  The
cache argument describes the file `downloads/video_urls.json`: `none`
when absent, `some (Except.error ())` when present but unreadable or not
valid JSON (the caught-and-logged case), `some (Except.ok l)` when it
parses as the record list `l`.  Only a present, parseable, non-empty
cache with the force flag unset short-circuits the browser phase. -/
def extractVideoUrls (cache : Option (Except Unit (List VideoInfo)))
    (force : Bool) (env : BrowserEnv) : ExtractOutcome :=
  match cache, force with
  | some (Except.ok l), false => if l.isEmpty then freshExtract env else ⟨l, []⟩
  | some (Except.error _), false => freshExtract env
  | _, _ => freshExtract env

/-- Character filter of the safe-filename computation (lines 344, 448):
`c.isalnum() or c in (' ', '-', '_')`, at the ASCII range the synthetic
titles use. -/
def keepChar (c : Char) : Bool := c.isAlphanum || c = ' ' || c = '-' || c = '_'

/-- Models lines 344-345 and 448-449: filter the title, strip trailing
spaces (after the filter, ' ' is the only whitespace left for `rstrip` to
remove), and replace spaces by underscores. -/
def safeTitle (t : PyStr) : PyStr :=
  (((t.filter keepChar).reverse.dropWhile (fun c => c = ' ')).reverse).map
    (fun c => if c = ' ' then '_' else c)

/-- Models the output filename `f'{index:03d}_{safe_title}.mp4'`
(lines 347 and 450). -/
def outFileName (i : Nat) (title : PyStr) : PyStr :=
  pad3 i ++ "_".toList ++ safeTitle title ++ ".mp4".toList

/-- Models `download_video` (lines 338-427) at the granularity the
claims use: an existing output file is skipped with zero external
downloader invocations, otherwise the downloader runs (counted once per
record) with abstract outcome `ok`.  Returns (success, invocations). -/
def downloadVideo (fexists : PyStr → Bool) (ok : Bool) (i : Nat)
    (v : VideoInfo) : Bool × Nat :=
  if fexists (outFileName i v.title) then (true, 0) else (ok, 1)

/-- Models `run_download` (lines 429-492).  `fexists` is the file-system
state of the videos directory, `dlOk i` abstracts whether the external
downloader eventually succeeds for the record at position `i`.  Empty
extraction data fails the run; records whose output file exists are
placed in `already_downloaded`; when nothing is left to download the run
succeeds at once; otherwise each remaining record goes through
`download_video` and the run succeeds when none failed.  Returns
(success, external downloader invocations). -/
def runDownload (vd : List VideoInfo) (fexists : PyStr → Bool)
    (dlOk : Nat → Bool) : Bool × Nat :=
  if vd.isEmpty then (false, 0)
  else
    let indexed := pyEnumerate 1 vd
    let pending := indexed.filter (fun p => !(fexists (outFileName p.1 p.2.title)))
    if pending.isEmpty then (true, 0)
    else
      let results := pending.map (fun p => downloadVideo fexists (dlOk p.1) p.1 p.2)
      (results.all (fun r => r.1), results.foldl (fun n r => n + r.2) 0)

/-- Models `download_command` (lines 528-532): run extraction then the
download batch, exit code 0 on success and 1 otherwise. -/
def downloadCommandExit (cache : Option (Except Unit (List VideoInfo)))
    (force : Bool) (env : BrowserEnv) (fexists : PyStr → Bool)
    (dlOk : Nat → Bool) : Nat :=
  if (runDownload (extractVideoUrls cache force env).data fexists dlOk).1 then 0
  else 1

/-- Part of `s` after the first occurrence of `sep`, or `none` when `sep`
does not occur: used only by the spec-side URL reference functions. -/
def afterFirstSub (sep : PyStr) : PyStr → Option PyStr
  | [] => none
  | c :: rest =>
    if startsWith sep (c :: rest) then some ((c :: rest).drop sep.length)
    else afterFirstSub sep rest

/-- Modelled from the spec wording of claim C3: the host of a URL, read
as the characters after the scheme separator up to the first '/', '?' or
'#'.  This is a reference definition for comparison with the code's
substring test; the source has no host parsing. -/
def specHost (u : PyStr) : PyStr :=
  match afterFirstSub ("://".toList) u with
  | none => []
  | some r => r.takeWhile (fun c => !(c = '/' || c = '?' || c = '#'))

/-- Modelled from the spec wording of claim C3: the path of a URL, read
as the characters from the first '/' after the host up to the query or
fragment.  Reference definition only. -/
def specPath (u : PyStr) : PyStr :=
  match afterFirstSub ("://".toList) u with
  | none => []
  | some r =>
    (r.dropWhile (fun c => !(c = '/' || c = '?' || c = '#'))).takeWhile
      (fun c => !(c = '?' || c = '#'))

/-- Modelled from the spec wording of claim C3: the identifier as the
spec states it, the path segment immediately preceding the `.m3u8`
extension with the query string stripped (the query is already excluded
from `specPath`).  Reference definition only. -/
def specIdent (u : PyStr) : PyStr :=
  cutAt (".m3u8".toList) (pyLastSplit '/' (specPath u))

end Whop

namespace Whop

lemma findUrl_eq_none_iff (vid : PyStr) (st : List (PyStr × PyStr)) :
    findUrl vid st = none ↔ vid ∉ st.map Prod.fst := by
  induction st with
  | nil => simp [findUrl]
  | cons kv rest ih =>
    simp only [findUrl, List.map_cons, List.mem_cons]
    by_cases h : kv.1 = vid
    · simp [h]
    · rw [if_neg h]
      constructor
      · intro hn hor
        rcases hor with he | hm
        · exact h he.symm
        · exact (ih.mp hn) hm
      · intro hn
        exact ih.mpr (fun hm => hn (Or.inr hm))

lemma handleResponse_eq (st : List (PyStr × PyStr)) (url : PyStr) :
    handleResponse st url =
      if respMatches url ∧ findUrl (extractVideoId url) st = none then
        st ++ [(extractVideoId url, url)]
      else st := by
  unfold handleResponse
  cases hfind : findUrl (extractVideoId url) st with
  | none => by_cases h1 : respMatches url <;> simp [h1, hfind]
  | some u => by_cases h1 : respMatches url <;> simp [h1, hfind]

lemma handleResponse_keys_nodup (st : List (PyStr × PyStr)) (url : PyStr)
    (h : (st.map Prod.fst).Nodup) :
    ((handleResponse st url).map Prod.fst).Nodup := by
  rw [handleResponse_eq]
  split
  · rename_i hc
    have hnotin := (findUrl_eq_none_iff _ _).mp hc.2
    simp [List.nodup_append, h, hnotin]
  · exact h

lemma foldl_handleResponse_keys_nodup (urls : List PyStr) :
    ∀ st : List (PyStr × PyStr), (st.map Prod.fst).Nodup →
      ((urls.foldl handleResponse st).map Prod.fst).Nodup := by
  induction urls with
  | nil => intro st h; exact h
  | cons u rest ih => intro st h; exact ih _ (handleResponse_keys_nodup st u h)

lemma observeAll_append_one (urls : List PyStr) (url : PyStr) :
    observeAll (urls ++ [url]) = handleResponse (observeAll urls) url := by
  unfold observeAll
  rw [List.foldl_append]
  rfl

/-- C1: delivering any sequence of network responses to the observer, in
any order and with any number of duplicates, produces a map whose
identifiers are pairwise distinct (at most one entry per identifier), and
delivering a further response whose extracted identifier is already
recorded leaves the map unchanged, so the previously recorded URL is
never overwritten and the discovery count never increases. -/
theorem c1_observer_dedup (urls : List PyStr) (url u : PyStr) :
    ((observeAll urls).map Prod.fst).Nodup ∧
      (findUrl (extractVideoId url) (observeAll urls) = some u →
        observeAll (urls ++ [url]) = observeAll urls) := by
  constructor
  · exact foldl_handleResponse_keys_nodup urls [] (by simp)
  · intro hfound
    rw [observeAll_append_one, handleResponse_eq]
    split
    · rename_i hc; rw [hc.2] at hfound; cases hfound
    · rfl

/-- Witness for C1 at a concrete duplicate delivery: identifier abc123 is
recorded once, and a second response with the same identifier but a
different query string leaves the map unchanged. -/
theorem c1_observer_dedup_witness :
    ((observeAll ["https://stream.mux.com/abc123.m3u8".toList]).map Prod.fst).Nodup ∧
      observeAll (["https://stream.mux.com/abc123.m3u8".toList] ++
          ["https://stream.mux.com/abc123.m3u8?t=2".toList]) =
        observeAll ["https://stream.mux.com/abc123.m3u8".toList] :=
  ⟨(c1_observer_dedup ["https://stream.mux.com/abc123.m3u8".toList]
      ("https://stream.mux.com/abc123.m3u8?t=2".toList)
      ("https://stream.mux.com/abc123.m3u8".toList)).1,
   (c1_observer_dedup ["https://stream.mux.com/abc123.m3u8".toList]
      ("https://stream.mux.com/abc123.m3u8?t=2".toList)
      ("https://stream.mux.com/abc123.m3u8".toList)).2 (by decide)⟩

lemma pyEnumerate_map_fst (l : List α) :
    ∀ n, (pyEnumerate n l).map Prod.fst = List.range' n l.length := by
  induction l with
  | nil => intro n; rfl
  | cons x xs ih => intro n; simp [pyEnumerate, ih, List.range']

lemma pyEnumerate_map_snd (l : List α) (f : α → β) :
    ∀ n, (pyEnumerate n l).map (fun p => f p.2) = l.map f := by
  induction l with
  | nil => intro n; rfl
  | cons x xs ih => intro n; simp [pyEnumerate, ih]

lemma toVideoData_index (m : List (PyStr × PyStr)) :
    (toVideoData m).map VideoInfo.index = List.range' 1 m.length := by
  unfold toVideoData
  rw [List.map_map]
  exact pyEnumerate_map_fst m 1

lemma toVideoData_ids (m : List (PyStr × PyStr)) :
    (toVideoData m).map VideoInfo.video_id = m.map Prod.fst := by
  unfold toVideoData
  rw [List.map_map]
  exact pyEnumerate_map_snd m Prod.fst 1

/-- C4: on every terminal path of a browser extraction the returned data
is either the empty list (login timeout) or the captured map converted,
in discovery order, to lesson records whose 1-based position equals their
place in the sequence; in particular the duplicate example abc123,
def456, abc123 yields exactly two records, position 1 for abc123 and
position 2 for def456. -/
theorem c4_lesson_records :
    (∀ rs : List PyStr,
      (toVideoData (observeAll rs)).map VideoInfo.index =
          List.range' 1 (observeAll rs).length ∧
        (toVideoData (observeAll rs)).map VideoInfo.video_id =
          (observeAll rs).map Prod.fst) ∧
    toVideoData (observeAll
        ["https://stream.mux.com/abc123.m3u8".toList,
         "https://stream.mux.com/def456.m3u8".toList,
         "https://stream.mux.com/abc123.m3u8".toList]) =
      [⟨"Lesson 01".toList, "https://stream.mux.com/abc123.m3u8".toList,
          "abc123".toList, 1⟩,
        ⟨"Lesson 02".toList, "https://stream.mux.com/def456.m3u8".toList,
          "def456".toList, 2⟩] ∧
    (∀ env : BrowserEnv, (freshExtract env).data = [] ∨
      (freshExtract env).data = toVideoData (observeAll env.responses)) := by
  refine ⟨fun rs => ⟨toVideoData_index _, toVideoData_ids _⟩, by decide, fun env => ?_⟩
  unfold freshExtract afterLoginPhase
  by_cases h1 : env.isLoginUrl <;> by_cases h2 : env.keyboardNavWorks <;>
    simp [h1, h2] <;> split <;> simp

end Whop

namespace Whop

lemma startsWith_append_self : ∀ l m : PyStr, startsWith l (l ++ m) = true := by
  intro l
  induction l with
  | nil => intro m; rfl
  | cons c cs ih => intro m; simp [startsWith, ih]

lemma pyContains_append_right (sub t : PyStr) (h : startsWith sub t = true) :
    ∀ a : PyStr, pyContains sub (a ++ t) = true := by
  intro a
  induction a with
  | nil =>
    cases t with
    | nil => simpa [pyContains] using h
    | cons c r => simp [pyContains, h]
  | cons c a' ih => simp [pyContains, ih]

lemma lastSegAux_append (sep : Char) (b : PyStr) :
    ∀ a cur : PyStr, lastSegAux sep cur (a ++ sep :: b) = lastSegAux sep [] b := by
  intro a
  induction a with
  | nil => intro cur; simp [lastSegAux]
  | cons c a' ih =>
    intro cur
    by_cases h : c = sep <;> simp [lastSegAux, h, ih]

lemma lastSegAux_no_sep (sep : Char) :
    ∀ b : PyStr, (∀ c ∈ b, c ≠ sep) → ∀ cur, lastSegAux sep cur b = cur.reverse ++ b := by
  intro b
  induction b with
  | nil => intro _ cur; simp [lastSegAux]
  | cons c b' ih =>
    intro h cur
    have hc : c ≠ sep := h c (by simp)
    have hb' : ∀ x ∈ b', x ≠ sep := fun x hx => h x (by simp [hx])
    simp [lastSegAux, hc, ih hb' (c :: cur)]

lemma cutAt_append (sep : PyStr) (d : Char) (sep' b : PyStr) (hd : sep = d :: sep')
    (hb : startsWith sep b = true) :
    ∀ a : PyStr, (∀ c ∈ a, c ≠ d) → cutAt sep (a ++ b) = a := by
  intro a
  induction a with
  | nil =>
    intro _
    cases b with
    | nil => rw [hd] at hb; simp [startsWith] at hb
    | cons e r => simp [cutAt, hb]
  | cons c a' ih =>
    intro h
    have hc : c ≠ d := h c (by simp)
    have ha' : ∀ x ∈ a', x ≠ d := fun x hx => h x (by simp [hx])
    have hdc : ¬ d = c := fun he => hc he.symm
    have hsw : startsWith sep (c :: (a' ++ b)) = false := by
      rw [hd]
      simp [startsWith, hdc]
    simp [cutAt, hsw, ih ha']

lemma cutAt_no_occur (sep : PyStr) (d : Char) (sep' : PyStr) (hd : sep = d :: sep') :
    ∀ s : PyStr, (∀ c ∈ s, c ≠ d) → cutAt sep s = s := by
  intro s
  induction s with
  | nil => intro _; rfl
  | cons c s' ih =>
    intro h
    have hc : c ≠ d := h c (by simp)
    have hs' : ∀ x ∈ s', x ≠ d := fun x hx => h x (by simp [hx])
    have hdc : ¬ d = c := fun he => hc he.symm
    have hsw : startsWith sep (c :: s') = false := by
      rw [hd]
      simp [startsWith, hdc]
    simp [cutAt, hsw, ih hs']

/-- C3 counterexample: the code records by a substring test, so a response
whose URL merely mentions stream.mux.com and .m3u8 in its query is
recorded although its host is not the streaming CDN; and on a genuine CDN
manifest URL whose query string contains a slash, the stored identifier
is taken from after that slash and differs from the path segment
preceding the extension with the query stripped. -/
theorem c3_manifest_counterexample :
    (respMatches ("https://evil.example/watch?src=stream.mux.com&page=.m3u8".toList) = true ∧
      handleResponse []
          ("https://evil.example/watch?src=stream.mux.com&page=.m3u8".toList) ≠ [] ∧
      specHost ("https://evil.example/watch?src=stream.mux.com&page=.m3u8".toList) ≠
        "stream.mux.com".toList) ∧
    (respMatches ("https://stream.mux.com/abc.m3u8?redirect=/foo".toList) = true ∧
      specHost ("https://stream.mux.com/abc.m3u8?redirect=/foo".toList) =
        "stream.mux.com".toList ∧
      endsWith (".m3u8".toList)
          (specPath ("https://stream.mux.com/abc.m3u8?redirect=/foo".toList)) = true ∧
      extractVideoId ("https://stream.mux.com/abc.m3u8?redirect=/foo".toList) =
        "foo".toList ∧
      specIdent ("https://stream.mux.com/abc.m3u8?redirect=/foo".toList) =
        "abc".toList ∧
      handleResponse [] ("https://stream.mux.com/abc.m3u8?redirect=/foo".toList) =
        [("foo".toList, "https://stream.mux.com/abc.m3u8?redirect=/foo".toList)]) := by
  decide

/-- C3 amended: the observer records a response iff the URL contains
stream.mux.com and .m3u8 as substrings anywhere (not necessarily as host
and path extension) and the extracted identifier is new; the stored
identifier is the last '/'-separated component of the whole URL truncated
before the first '.m3u8' and before the first '?'.  For URLs of the
canonical form https://stream.mux.com/<id>.m3u8<query> with <id> free of
'/', '?' and '.' and a query free of '/', that identifier is exactly the
path segment preceding the extension with the query stripped, as the
claim words it. -/
theorem c3_manifest_amended :
    (∀ (st : List (PyStr × PyStr)) (url : PyStr),
      (handleResponse st url ≠ st ↔
        respMatches url = true ∧ findUrl (extractVideoId url) st = none) ∧
      (handleResponse st url = st ∨
        handleResponse st url = st ++ [(extractVideoId url, url)])) ∧
    (∀ vid q : PyStr, (∀ c ∈ vid, c ≠ '/' ∧ c ≠ '?' ∧ c ≠ '.') →
      (∀ c ∈ q, c ≠ '/') →
      respMatches ("https://stream.mux.com/".toList ++ vid ++ ".m3u8".toList ++ q) =
          true ∧
        extractVideoId ("https://stream.mux.com/".toList ++ vid ++ ".m3u8".toList ++ q) =
          vid) := by
  constructor
  · intro st url
    rw [handleResponse_eq]
    by_cases hc : respMatches url = true ∧ findUrl (extractVideoId url) st = none
    · rw [if_pos hc]
      refine ⟨⟨fun _ => hc, fun _ he => ?_⟩, Or.inr rfl⟩
      have hl := congrArg List.length he
      simp at hl
    · rw [if_neg hc]
      exact ⟨⟨fun hne => absurd rfl hne, fun h => absurd h hc⟩, Or.inl rfl⟩
  · intro vid q hid hq
    have hnos : ∀ c ∈ vid ++ (".m3u8".toList ++ q), c ≠ '/' := by
      intro c hc
      rcases List.mem_append.mp hc with h | h
      · exact (hid c h).1
      · rcases List.mem_append.mp h with h2 | h2
        · exact (by decide : ∀ x ∈ (".m3u8".toList : PyStr), x ≠ '/') c h2
        · exact hq c h2
    have key1 : pyContains ("stream.mux.com".toList)
        ("https://stream.mux.com/".toList ++ vid ++ ".m3u8".toList ++ q) = true := by
      rw [show ("https://stream.mux.com/".toList : PyStr) =
          "https://".toList ++ ("stream.mux.com".toList ++ ['/']) from by decide]
      simp only [List.append_assoc]
      exact pyContains_append_right _ _ (startsWith_append_self _ _) _
    have key2 : pyContains (".m3u8".toList)
        ("https://stream.mux.com/".toList ++ vid ++ ".m3u8".toList ++ q) = true := by
      rw [show ("https://stream.mux.com/".toList ++ vid ++ ".m3u8".toList ++ q : PyStr) =
          ("https://stream.mux.com/".toList ++ vid) ++ (".m3u8".toList ++ q) from by
        simp [List.append_assoc]]
      exact pyContains_append_right _ _ (startsWith_append_self _ _) _
    have e1 : ("https://stream.mux.com/".toList ++ vid ++ ".m3u8".toList ++ q : PyStr) =
        "https://stream.mux.com".toList ++ '/' :: (vid ++ (".m3u8".toList ++ q)) := by
      rw [show ("https://stream.mux.com/".toList : PyStr) =
          "https://stream.mux.com".toList ++ ['/'] from by decide,
        List.append_assoc]
      rfl
    have hlast : pyLastSplit '/'
        ("https://stream.mux.com/".toList ++ vid ++ ".m3u8".toList ++ q) =
        vid ++ (".m3u8".toList ++ q) := by
      show lastSegAux '/' [] _ = _
      rw [e1]
      rw [lastSegAux_append '/' (vid ++ (".m3u8".toList ++ q))
        ("https://stream.mux.com".toList) []]
      rw [lastSegAux_no_sep '/' _ hnos []]
      rfl
    have hcut1 : cutAt (".m3u8".toList) (vid ++ (".m3u8".toList ++ q)) = vid :=
      cutAt_append (".m3u8".toList) '.' ("m3u8".toList) (".m3u8".toList ++ q)
        (by decide) (startsWith_append_self _ _) vid (fun c hc => (hid c hc).2.2)
    have hcut2 : cutAt ("?".toList) vid = vid :=
      cutAt_no_occur ("?".toList) '?' [] (by decide) vid (fun c hc => (hid c hc).2.1)
    refine ⟨?_, ?_⟩
    · unfold respMatches
      rw [key1, key2]
      rfl
    · show cutAt ("?".toList) (cutAt (".m3u8".toList) (pyLastSplit '/' _)) = vid
      rw [hlast, hcut1, hcut2]

/-- Witness for the amended C3 at a concrete canonical manifest URL. -/
theorem c3_manifest_amended_witness :
    respMatches ("https://stream.mux.com/".toList ++ "abc123".toList ++
        ".m3u8".toList ++ "?cdn=1".toList) = true ∧
      extractVideoId ("https://stream.mux.com/".toList ++ "abc123".toList ++
        ".m3u8".toList ++ "?cdn=1".toList) = "abc123".toList :=
  c3_manifest_amended.2 ("abc123".toList) ("?cdn=1".toList) (by decide) (by decide)

end Whop

namespace Whop

lemma autoLoopAux_cap (f : Nat → Nat) :
    ∀ (fuel attempt noNew last : Nat) (acts : List BAction), noNew ≤ 15 →
      (autoLoopAux f fuel attempt noNew last acts).reason = StopReason.capExit ∧
        (autoLoopAux f fuel attempt noNew last acts).navCount = attempt + fuel := by
  intro fuel
  induction fuel with
  | zero =>
    intro attempt noNew last acts _
    exact ⟨rfl, rfl⟩
  | succ fuel ih =>
    intro attempt noNew last acts h
    by_cases hgt : f attempt > last
    · simp only [autoLoopAux, hgt, if_true]
      have hb : ¬((0 : Nat) > 30 ∧ f attempt > 0) := by omega
      rw [if_neg hb]
      have h15 : ¬((0 : Nat) > 15) := by omega
      rw [if_neg h15]
      refine ⟨(ih _ _ _ _ (by omega)).1, ?_⟩
      rw [(ih _ _ _ _ (by omega)).2]
      omega
    · simp only [autoLoopAux, hgt, if_false]
      have hb : ¬(noNew + 1 > 30 ∧ f attempt > 0) := by omega
      rw [if_neg hb]
      by_cases h15 : noNew + 1 > 15
      · rw [if_pos h15]
        refine ⟨(ih _ _ _ _ (by omega)).1, ?_⟩
        rw [(ih _ _ _ _ (by omega)).2]
        omega
      · rw [if_neg h15]
        refine ⟨(ih _ _ _ _ (by omega)).1, ?_⟩
        rw [(ih _ _ _ _ (by omega)).2]
        omega

/-- C2 (code bug): in automatic mode the stall-threshold exit on line 241
can never fire, because the recovery branch on lines 250-267 resets the
stall counter to 10 whenever it exceeds 15, so the counter never exceeds
30; whatever capture counts the loop observes, it always ends through the
150-attempt iteration cap, and termination through the primary stall
threshold is unreachable even when captures stop arriving.  The last two
conjuncts evaluate the loop at the failing input (one capture at the
first check and none afterwards). -/
theorem c2_stall_exit_unreachable :
    (∀ f : Nat → Nat, (autoLoop f).reason = StopReason.capExit ∧
      (autoLoop f).navCount = 150) ∧
    (autoLoop (fun _ => 1)).reason = StopReason.capExit ∧
      (autoLoop (fun _ => 1)).navCount = 150 := by
  refine ⟨fun f => ⟨(autoLoopAux_cap f 150 0 0 0 [] (by omega)).1, ?_⟩,
    by decide, by decide⟩
  show (autoLoopAux f 150 0 0 0 []).navCount = 150
  rw [(autoLoopAux_cap f 150 0 0 0 [] (by omega)).2]

/-- C5: a present, parseable, non-empty cache with the force flag unset
short-circuits extraction with zero browser interactions and returns the
cached records unchanged; with the force flag set the cache is ignored
and the full fresh browser extraction runs, whatever the cache holds. -/
theorem c5_cache_short_circuit :
    (∀ (l : List VideoInfo) (env : BrowserEnv), l ≠ [] →
      extractVideoUrls (some (Except.ok l)) false env = ⟨l, []⟩) ∧
    (∀ (cache : Option (Except Unit (List VideoInfo))) (env : BrowserEnv),
      extractVideoUrls cache true env = freshExtract env) := by
  constructor
  · intro l env hl
    unfold extractVideoUrls
    simp [hl]
  · intro cache env
    rcases cache with _ | ce
    · rfl
    · rcases ce with e | l <;> rfl

/-- Witness for C5 at a concrete one-record cache. -/
theorem c5_cache_short_circuit_witness :
    extractVideoUrls (some (Except.ok [⟨"Lesson 01".toList, "u".toList, "v".toList, 1⟩]))
        false ⟨false, false, (fun _ => true), true, (fun _ => 0), (fun _ => true), []⟩ =
      ⟨[⟨"Lesson 01".toList, "u".toList, "v".toList, 1⟩], []⟩ :=
  c5_cache_short_circuit.1 _ _ (by simp)

/-- C6: a cache file that exists but is unreadable or invalid is treated
exactly as an absent cache: extraction does not fail (the model is a
total function) and proceeds to the same fresh browser extraction as a
cache miss, for either value of the force flag. -/
theorem c6_corrupt_cache_is_miss (force : Bool) (env : BrowserEnv) :
    extractVideoUrls (some (Except.error ())) force env =
      extractVideoUrls none force env := by
  cases force <;> rfl

lemma loginWaitAux_stuck (sl : Nat → Bool) (hall : ∀ e, sl e = true) :
    ∀ fuel e, e + 2 * fuel = 300 → loginWaitAux sl fuel e = (300, false) := by
  intro fuel
  induction fuel with
  | zero =>
    intro e he
    have : e = 300 := by omega
    subst this
    rfl
  | succ fuel ih =>
    intro e he
    have he2 : e < 300 := by omega
    simp only [loginWaitAux, he2, if_true, hall (e + 2)]
    exact ih (e + 2) (by omega)

/-- C7: when the settled URL matches the login pattern and the URL never
leaves the pattern at any poll, the wait loop uses up the whole
300-second ceiling, extraction returns the empty list, and the download
run exits with status 1; the wait loop runs exactly once (no retry). -/
theorem c7_login_timeout (env : BrowserEnv) (fexists : PyStr → Bool)
    (dlOk : Nat → Bool) (h1 : env.isLoginUrl = true)
    (h2 : ∀ e, env.stillLogin e = true) :
    (freshExtract env).data = [] ∧
      downloadCommandExit none false env fexists dlOk = 1 := by
  have hw : loginWait env.stillLogin = (300, false) :=
    loginWaitAux_stuck env.stillLogin h2 150 0 (by omega)
  have hdata : (freshExtract env).data = [] := by
    unfold freshExtract
    simp [h1, hw]
  refine ⟨hdata, ?_⟩
  unfold downloadCommandExit
  rw [show extractVideoUrls none false env = freshExtract env from rfl, hdata]
  rfl

/-- Witness for C7 at a concrete always-login environment. -/
theorem c7_login_timeout_witness :
    (freshExtract ⟨false, true, (fun _ => true), true, (fun _ => 0),
        (fun _ => true), []⟩).data = [] ∧
      downloadCommandExit none false
        ⟨false, true, (fun _ => true), true, (fun _ => 0), (fun _ => true), []⟩
        (fun _ => false) (fun _ => true) = 1 :=
  c7_login_timeout _ _ _ rfl (fun _ => rfl)

/-- C9: when the URL first leaves the login pattern exactly on the poll
at which the elapsed counter reaches 300, the wait loop ends through its
URL-change break (second component true), yet the final elapsed value 300
still satisfies the `elapsed >= max_wait` test and extraction returns the
empty list: a login completed exactly at the ceiling is treated as a
timeout. -/
theorem c9_login_exact_ceiling :
    loginWait (fun e => decide (e < 300)) = (300, true) ∧
      (freshExtract ⟨false, true, (fun e => decide (e < 300)), true, (fun _ => 0),
        (fun _ => true), []⟩).data = [] := by
  decide

end Whop

namespace Whop

lemma manualAux_spec (aliveAt : Nat → Bool) :
    ∀ (fuel k : Nat) (acts : List BAction), k + fuel = 302 → k ≤ 300 →
      (∀ a ∈ acts, a.isKeyPress = false) →
      (∀ a ∈ (manualAux aliveAt fuel k acts).acts, a.isKeyPress = false) ∧
        (((manualAux aliveAt fuel k acts).reason = ManualStop.closed ∧
            (manualAux aliveAt fuel k acts).iters ≤ 300 ∧
            aliveAt (manualAux aliveAt fuel k acts).iters = false ∧
            k ≤ (manualAux aliveAt fuel k acts).iters ∧
            (∀ j, k ≤ j → j < (manualAux aliveAt fuel k acts).iters →
              aliveAt j = true)) ∨
          ((manualAux aliveAt fuel k acts).reason = ManualStop.timedOut ∧
            (manualAux aliveAt fuel k acts).iters = 300 ∧
            (∀ j, k ≤ j → j ≤ 300 → aliveAt j = true))) := by
  intro fuel
  induction fuel with
  | zero =>
    intro k acts hk hk3 hacts
    omega
  | succ fuel ih =>
    intro k acts hk hk3 hacts
    have hacts1 : ∀ a ∈ acts ++ [BAction.waitMs 2000, BAction.evalScript],
        a.isKeyPress = false := by
      intro a ha
      rcases List.mem_append.mp ha with hmem | hmem
      · exact hacts a hmem
      · simp only [List.mem_cons, List.mem_singleton] at hmem
        rcases hmem with rfl | rfl | hmem
        · rfl
        · rfl
        · cases hmem
    cases hal : aliveAt k with
    | false =>
      have hres : manualAux aliveAt (fuel + 1) k acts =
          ⟨ManualStop.closed, k, acts ++ [BAction.waitMs 2000, BAction.evalScript]⟩ := by
        simp [manualAux, hal]
      rw [hres]
      refine ⟨hacts1, Or.inl ⟨rfl, ?_, hal, Nat.le_refl k,
        fun j hj1 hj2 => ?_⟩⟩
      · show k ≤ 300
        omega
      · have hj2' : j < k := hj2
        omega
    | true =>
      by_cases ht : 2 * (k + 1) > 600
      · have hk300 : k = 300 := by omega
        have hres : manualAux aliveAt (fuel + 1) k acts =
            ⟨ManualStop.timedOut, k, acts ++ [BAction.waitMs 2000, BAction.evalScript]⟩ := by
          simp [manualAux, hal, ht]
        rw [hres]
        refine ⟨hacts1, Or.inr ⟨rfl, hk300, fun j hj1 hj2 => ?_⟩⟩
        have : j = 300 := by omega
        subst this
        rw [← hk300]
        exact hal
      · have hrec := ih (k + 1) (acts ++ [BAction.waitMs 2000, BAction.evalScript])
          (by omega) (by omega) hacts1
        have hres : manualAux aliveAt (fuel + 1) k acts =
            manualAux aliveAt fuel (k + 1)
              (acts ++ [BAction.waitMs 2000, BAction.evalScript]) := by
          simp [manualAux, hal, ht]
        rw [hres]
        refine ⟨hrec.1, ?_⟩
        rcases hrec.2 with ⟨g1, g2, g3, g4, g5⟩ | ⟨g1, g2, g3⟩
        · refine Or.inl ⟨g1, g2, g3, by omega, fun j hj1 hj2 => ?_⟩
          by_cases hjk : j = k
          · subst hjk; exact hal
          · exact g5 j (by omega) hj2
        · refine Or.inr ⟨g1, g2, fun j hj1 hj2 => ?_⟩
          by_cases hjk : j = k
          · subst hjk; exact hal
          · exact g3 j (by omega) hj2

/-- C8: the manual monitoring loop never issues a key press; it ends on
the first poll whose liveness probe reports the session closed (every
earlier probe having reported it alive), or, when every probe within the
ceiling reports it alive, through the 600-second wall-clock timeout on
poll 300; and on the manual-mode path extraction then returns whatever
the observer captured, converted to lesson records. -/
theorem c8_manual_monitor :
    (∀ aliveAt : Nat → Bool,
      ((manualMonitor aliveAt).acts.all (fun a => !a.isKeyPress) = true) ∧
        (((manualMonitor aliveAt).reason = ManualStop.closed ∧
            (manualMonitor aliveAt).iters ≤ 300 ∧
            aliveAt (manualMonitor aliveAt).iters = false ∧
            (∀ j, j < (manualMonitor aliveAt).iters → aliveAt j = true)) ∨
          ((manualMonitor aliveAt).reason = ManualStop.timedOut ∧
            (manualMonitor aliveAt).iters = 300 ∧
            (∀ j, j ≤ 300 → aliveAt j = true)))) ∧
    (∀ env : BrowserEnv, env.isLoginUrl = false → env.keyboardNavWorks = false →
      (freshExtract env).data = toVideoData (observeAll env.responses) ∧
        (freshExtract env).acts =
          prologueActs env ++ detectActs env ++ (manualMonitor env.aliveAt).acts) := by
  constructor
  · intro aliveAt
    have h := manualAux_spec aliveAt 302 0 [] (by omega) (by omega)
      (by intro a ha; cases ha)
    constructor
    · rw [List.all_eq_true]
      intro a ha
      have := h.1 a ha
      simp [this]
    · rcases h.2 with ⟨g1, g2, g3, _, g5⟩ | ⟨g1, g2, g3⟩
      · exact Or.inl ⟨g1, g2, g3, fun j hj => g5 j (by omega) hj⟩
      · exact Or.inr ⟨g1, g2, fun j hj => g3 j (by omega) hj⟩
  · intro env h1 h2
    unfold freshExtract afterLoginPhase
    simp [h1, h2, List.append_assoc]

/-- Witness for C8: a session whose liveness probe fails on poll 5 ends
the monitor as closed without any key press, and a concrete manual-mode
environment returns its captured record. -/
theorem c8_manual_monitor_witness :
    (manualMonitor (fun k => k != 5)).reason = ManualStop.closed ∧
      (manualMonitor (fun k => k != 5)).acts.all (fun a => !a.isKeyPress) = true ∧
      (freshExtract ⟨false, false, (fun _ => true), false, (fun _ => 0),
          (fun k => k != 5), ["https://stream.mux.com/abc123.m3u8".toList]⟩).data =
        toVideoData (observeAll ["https://stream.mux.com/abc123.m3u8".toList]) := by
  refine ⟨?_, (c8_manual_monitor.1 (fun k => k != 5)).1,
    (c8_manual_monitor.2 _ rfl rfl).1⟩
  rcases (c8_manual_monitor.1 (fun k => k != 5)).2 with hc | htx
  · exact hc.1
  · exact absurd (htx.2.2 5 (by omega)) (by decide)

/-- C10 counterexample: a run whose extraction produces no records has
every (vacuously, all zero) output file present and makes zero external
downloader invocations, yet `run_download` fails the run and the exit
status is 1, not 0, because the empty-data check fires first. -/
theorem c10_all_exist_counterexample :
    (extractVideoUrls none false ⟨false, false, (fun _ => true), true, (fun _ => 0),
        (fun _ => true), []⟩).data = [] ∧
      runDownload [] (fun _ => true) (fun _ => true) = (false, 0) ∧
      downloadCommandExit none false ⟨false, false, (fun _ => true), true,
        (fun _ => 0), (fun _ => true), []⟩ (fun _ => true) (fun _ => true) = 1 := by
  decide

/-- C10 amended: in every download run, a record whose target output file
(named from its 1-based index and sanitized title) exists is excluded
from the pending list, so the external downloader is never invoked for
it; and when there is at least one record and every record's file exists,
the run succeeds with zero downloader invocations.  The nonemptiness
condition is forced by the counterexample: with zero records the code
fails the run before the existence scan. -/
theorem c10_skip_existing_amended :
    (∀ (vd : List VideoInfo) (fexists : PyStr → Bool) (i : Nat) (v : VideoInfo),
      fexists (outFileName i v.title) = true →
      (i, v) ∉ (pyEnumerate 1 vd).filter
        (fun p => !(fexists (outFileName p.1 p.2.title)))) ∧
    (∀ (vd : List VideoInfo) (fexists : PyStr → Bool) (dlOk : Nat → Bool),
      vd ≠ [] →
      (∀ p ∈ pyEnumerate 1 vd, fexists (outFileName p.1 p.2.title) = true) →
      runDownload vd fexists dlOk = (true, 0)) := by
  constructor
  · intro vd fexists i v hex hmem
    have hp := List.of_mem_filter hmem
    simp [hex] at hp
  · intro vd fexists dlOk hvd hall
    unfold runDownload
    have h1 : vd.isEmpty = false := by simp [hvd]
    have h2 : (pyEnumerate 1 vd).filter
        (fun p => !(fexists (outFileName p.1 p.2.title))) = [] := by
      rw [List.filter_eq_nil_iff]
      intro p hp
      simp [hall p hp]
    simp [h1, h2]

/-- Witness for the amended C10 at a concrete one-record run whose file
exists. -/
theorem c10_skip_existing_amended_witness :
    runDownload [⟨"Lesson 01".toList, "u".toList, "v".toList, 1⟩] (fun _ => true)
        (fun _ => true) = (true, 0) :=
  c10_skip_existing_amended.2 _ _ _ (by simp) (fun p _ => rfl)

end Whop
